import Mathlib

/-!
Verification of the Medical-Telegram-Warehouse analytical layer.

This file gives a shallow embedding, in Lean 4, of the in-scope logic of the
repository:

* the cache facade (`api/services/cache_service.py`),
* the fixed-window rate limiter (`api/middleware/rate_limit.py`),
* the query aggregation service (`api/services/query_service.py`):
  top-products pattern tallying, channel activity lookup, visual-content
  statistics rows, and the analytics-dashboard channel ranking,
* the image classification rules (`src/image_classifier.py`).

External collaborators (the relational store, the Redis client, the YOLO
model, pickle serialization, MD5 hashing) are modelled as explicit
parameters: lists of rows stand for query results, a `String → Option Nat`
map stands for the counter store, and abstract (de)serialization functions
stand for pickle.  Machine floats are modelled by `ℚ` (all arithmetic in the
claims is exact decimal arithmetic); Python `round(x, 3)` is modelled by
`pyRound3` below.  Theorems about each component follow the definitions.
-/

/-! ## Cache facade (`api/services/cache_service.py`) -/

/-- Error raised by the external cache backend or by (de)serialization;
Python's `Exception` at the granularity the facade observes. -/
inductive BackendError where
  | err : BackendError
deriving DecidableEq, Repr

/-- Serialized payloads (`bytes` produced by `pickle.dumps`). -/
def Bytes := List Nat

/-- The external Redis client, restricted to the operations the facade
calls.  Each operation may fail (raise), which `Except` records. -/
structure RedisClient where
  get : String → Except BackendError (Option Bytes)
  setex : String → Nat → Bytes → Except BackendError Unit
  del : String → Except BackendError Unit

/-- Pickle (de)serialization for values of type `β`; `pickle.dumps` /
`pickle.loads`, both of which may raise. -/
structure Pickle (β : Type) where
  dumps : β → Except BackendError Bytes
  loads : Bytes → Except BackendError β

/-- `CacheService.__init__(self, redis_client=None)`: the facade holds an
optional Redis client; the default construction `CacheService()` has none. -/
structure CacheService where
  redis : Option RedisClient

/-- `CacheService.is_available`: true iff a Redis client is present. -/
def CacheService.is_available (svc : CacheService) : Bool :=
  svc.redis.isSome

/-- `settings.CACHE_TTL` from `api/core/config.py`. -/
def settingsCacheTTL : Nat := 300

/-- The `try` block of `CacheService.get`: fetch the payload and, when it is
truthy (`if value:` — `None` and empty bytes are falsy), deserialize it.
Any step may raise. -/
def CacheService.getBody (pk : Pickle β) (r : RedisClient) (key : String) :
    Except BackendError (Option β) := do
  let value ← r.get key
  match value with
  | some bs =>
    if bs.isEmpty then pure none
    else do
      let v ← pk.loads bs
      pure (some v)
  | none => pure none

/-- `CacheService.get`: returns `.ok (some v)` on a hit, `.ok none` when the
backend is missing, the key is absent, or when anything inside the `try`
block raises (the `except` clause logs and falls through to `return None`).
An `.error` result would mean an exception escaped to the caller. -/
def CacheService.get (pk : Pickle β) (svc : CacheService) (key : String) :
    Except BackendError (Option β) :=
  match svc.redis with
  | none => .ok none
  | some r =>
    match CacheService.getBody pk r key with
    | .ok v => .ok v
    | .error _ => .ok none

/-- `CacheService.get` as seen by Python callers: the value or `None`. -/
def CacheService.getOpt (pk : Pickle β) (svc : CacheService) (key : String) :
    Option β :=
  match svc.get pk key with
  | .ok v => v
  | .error _ => none

/-- The `try` block of `CacheService.set`: serialize and store with the TTL
defaulting to `settings.CACHE_TTL`.  Any step may raise. -/
def CacheService.setBody (pk : Pickle β) (r : RedisClient) (key : String)
    (value : β) (ttl : Option Nat) : Except BackendError Unit := do
  let bs ← pk.dumps value
  r.setex key (ttl.getD settingsCacheTTL) bs

/-- `CacheService.set`: serializes and stores with TTL (default
`settings.CACHE_TTL`); returns `.ok true` on success and `.ok false` when
the backend is missing or anything in the `try` block raises. -/
def CacheService.set (pk : Pickle β) (svc : CacheService) (key : String)
    (value : β) (ttl : Option Nat) : Except BackendError Bool :=
  match svc.redis with
  | none => .ok false
  | some r =>
    match CacheService.setBody pk r key value ttl with
    | .ok _ => .ok true
    | .error _ => .ok false

/-- Stable insertion by a boolean "comes-no-later-than" test; helper for the
stable sorts below (Python's `sorted` is stable). -/
def insertStableBy (le : α → α → Bool) (x : α) : List α → List α
  | [] => [x]
  | y :: ys => if le x y then x :: y :: ys else y :: insertStableBy le x ys

/-- Stable insertion sort, matching Python `sorted` (Timsort is stable). -/
def sortStableBy (le : α → α → Bool) : List α → List α
  | [] => []
  | x :: xs => insertStableBy le x (sortStableBy le xs)

/-- `CacheService.generate_key`: joins `prefix`, the stringified positional
arguments and the name-sorted keyword arguments with `":"` and hashes the
result; the MD5 hex digest is abstracted as the function `md5hex`. -/
def CacheService.generate_key (md5hex : String → String) (pfx : String)
    (args : List String) (kwargs : List (String × String)) : String :=
  let sortedKw := sortStableBy (fun a b => !(decide (b.1 < a.1))) kwargs
  let keyParts := pfx :: (args ++ sortedKw.map (fun kv => kv.1 ++ ":" ++ kv.2))
  md5hex (String.intercalate ":" keyParts)

/-- The `cached(prefix, ttl)` decorator: the wrapper builds a fresh
`CacheService()` (with the default `redis_client=None`), looks the key up,
executes the function on a miss and attempts to store the result.  `f` is
the wrapped function, receiving the positional and keyword arguments. -/
def cached (pk : Pickle β) (md5hex : String → String) (pfx : String)
    (ttl : Option Nat) (f : List String → List (String × String) → β)
    (args : List String) (kwargs : List (String × String)) : β :=
  let cache_service : CacheService := { redis := none }
  let key := CacheService.generate_key md5hex pfx
    (args ++ kwargs.map (fun kv => kv.1 ++ ":" ++ kv.2)) []
  match cache_service.getOpt pk key with
  | some cachedResult => cachedResult
  | none =>
    let result := f args kwargs
    let _ := cache_service.set pk key result ttl
    result

/-! ## Fixed-window rate limiter (`api/middleware/rate_limit.py`) -/

/-- Decimal digit list of `n`, most significant first, with explicit fuel so
that the definition is structural (and kernel-reducible).  With
`fuel ≥ n + 1` this is exactly Python's `str(n)` for natural `n`. -/
def natDecimalAux (fuel : Nat) (n : Nat) : List Char :=
  match fuel with
  | 0 => []
  | f + 1 =>
    if n < 10 then [Nat.digitChar n]
    else natDecimalAux f (n / 10) ++ [Nat.digitChar (n % 10)]

/-- Python `str(n)` for a natural number: its decimal rendering. -/
def natToString (n : Nat) : String := ⟨natDecimalAux (n + 1) n⟩

/-- The counter store behind the rate limiter: the Redis key space,
restricted to integer counters.  The claim under verification assumes the
backend is available and functioning, so the store is modelled as a plain
key-value map (TTL expiry is not modelled; the TTL of `2 × window` only
makes counters outlive their window, which is irrelevant to the claims). -/
abbrev RLStore := String → Option Nat

/-- The store with no counters set. -/
def emptyRLStore : RLStore := fun _ => none

/-- Store update, as performed by `cache.set` on an available backend. -/
def RLStore.setCount (σ : RLStore) (k : String) (v : Nat) : RLStore :=
  fun k' => if k' = k then some v else σ k'

/-- `f"rate_limit:{client_ip}:{endpoint}"`. -/
def rateLimitKeyBase (ip path : String) : String :=
  "rate_limit:" ++ ip ++ ":" ++ path

/-- `rate_key = f"{key}:{window_key}"`. -/
def rateKey (ip path : String) (windowKey : Nat) : String :=
  rateLimitKeyBase ip path ++ ":" ++ natToString windowKey

/-- Paths skipped by the middleware (`/health`, `/metrics`, `/`). -/
def exemptPaths : List String := ["/health", "/metrics", "/"]

/-- Outcome of one pass through `RateLimitMiddleware.dispatch`:
`passthrough` when the path is exempt or the cache is unavailable (no
headers are attached), `allowed`/`rejected` with the three
`X-RateLimit-{Limit,Remaining,Reset}` header values otherwise. -/
inductive RLOutcome where
  | passthrough
  | allowed (limit remaining reset : Nat)
  | rejected (limit remaining reset : Nat)
deriving DecidableEq, Repr

/-- Whether the request was let through to the application. -/
def RLOutcome.isAllowed : RLOutcome → Bool
  | .passthrough => true
  | .allowed _ _ _ => true
  | .rejected _ _ _ => false

/-- One step of `RateLimitMiddleware.dispatch` for a request from `ip` to
`path` at Unix time `t`: window index `t / window`, reject when the stored
count has reached `limit` (remaining 0, reset at the start of the next
window), otherwise increment and allow.  `cacheAvailable` models
`self.cache.is_available()`; when false the middleware fails open. -/
def dispatch (limit window : Nat) (cacheAvailable : Bool) (ip path : String)
    (t : Nat) (σ : RLStore) : RLOutcome × RLStore :=
  if path ∈ exemptPaths then (.passthrough, σ)
  else
    let windowKey := t / window
    let rate_key := rateKey ip path windowKey
    if cacheAvailable then
      let request_count := (σ rate_key).getD 0
      if limit ≤ request_count then
        (.rejected limit 0 ((windowKey + 1) * window), σ)
      else
        (.allowed limit (limit - request_count - 1) ((windowKey + 1) * window),
          σ.setCount rate_key (request_count + 1))
    else (.passthrough, σ)

/-- A sequence of requests from the same client to the same endpoint, with
the cache available, threaded through the store. -/
def runRequests (limit window : Nat) (ip path : String) (ts : List Nat)
    (σ : RLStore) : List RLOutcome × RLStore :=
  match ts with
  | [] => ([], σ)
  | t :: rest =>
    let step := dispatch limit window true ip path t σ
    let next := runRequests limit window ip path rest step.2
    (step.1 :: next.1, next.2)

/-- Invariant: the store holds count `k` for the window-`w` counter of this
client/endpoint pair and nothing else. -/
def onlyWindowCount (ip path : String) (w k : Nat) (σ : RLStore) : Prop :=
  (∀ s, s ≠ rateKey ip path w → σ s = none) ∧ (σ (rateKey ip path w)).getD 0 = k

/-! ## Top products (`QueryService.get_top_products`) -/

/-- Python regex word characters (`\w`) over the ASCII text at hand. -/
def isWordChar (c : Char) : Bool := c.isAlphanum || c == '_'

/-- Word boundary `\b` to the left of a word character, given the preceding
character (`none` at the start of the text). -/
def boundaryBefore (prev : Option Char) : Bool :=
  match prev with
  | none => true
  | some c => !(isWordChar c)

/-- Word boundary `\b` to the right of a word character, given the rest of
the text after the match. -/
def boundaryAfterOk (rest : List Char) : Bool :=
  match rest with
  | [] => true
  | c :: _ => !(isWordChar c)

/-- Try to read `alt` literally at the head of `cs`; return the remainder. -/
def matchAlt (alt : List Char) (cs : List Char) : Option (List Char) :=
  if alt.isPrefixOf cs then some (cs.drop alt.length) else none

/-- Regex alternation `(w₁|w₂|…)` followed by `\b`, tried left to right at a
fixed position, as Python's backtracking engine does. -/
def firstAltMatch (alts : List (List Char)) (cs : List Char) :
    Option (List Char × List Char) :=
  match alts with
  | [] => none
  | a :: rest =>
    match matchAlt a cs with
    | some rest' =>
      if boundaryAfterOk rest' then some (a, rest') else firstAltMatch rest cs
    | none => firstAltMatch rest cs

/-- Regex whitespace `\s` for the texts at hand. -/
def isSpaceChar (c : Char) : Bool :=
  c == ' ' || c == '\t' || c == '\n' || c == '\r'

/-- The pattern `vitamin\s+[a-z]+` followed by `\b`, tried at a fixed
position.  Both quantifiers are greedy; no shorter split can ever satisfy
the trailing `\b` (any shorter `[a-z]+` ends before a letter), so the
greedy reading is exact. -/
def matchVitamin (cs : List Char) : Option (List Char × List Char) :=
  match matchAlt "vitamin".toList cs with
  | none => none
  | some rest =>
    let ws := rest.takeWhile isSpaceChar
    if ws.isEmpty then none
    else
      let rest2 := rest.drop ws.length
      let ls := rest2.takeWhile (fun c => c.isLower)
      if ls.isEmpty then none
      else
        let rest3 := rest2.drop ls.length
        if boundaryAfterOk rest3 then
          some ("vitamin".toList ++ ws ++ ls, rest3)
        else none

/-- One of the fixed product regexes of `get_top_products`: either a plain
word alternation `\b(w₁|w₂|…)\b` or the special `\b(vitamin\s+[a-z]+)\b`. -/
inductive ProductPattern where
  | alts (ws : List (List Char))
  | vitaminFamily
deriving Repr

/-- Try a product pattern at a fixed position (the leading `\b` has already
been checked by the scanner). -/
def matchPatternAt : ProductPattern → List Char → Option (List Char × List Char)
  | .alts ws, cs => firstAltMatch ws cs
  | .vitaminFamily, cs => matchVitamin cs

/-- Left-to-right non-overlapping scan of `re.findall`: try the pattern at
each position; on a match, emit it and resume after it.  `fuel` bounds the
number of steps (each step consumes at least one character, so
`cs.length` suffices). -/
def scanPattern (p : ProductPattern) (prev : Option Char) (cs : List Char)
    (fuel : Nat) : List (List Char) :=
  match fuel with
  | 0 => []
  | f + 1 =>
    match cs with
    | [] => []
    | c :: rest =>
      if boundaryBefore prev then
        match matchPatternAt p cs with
        | some (m, rest') => m :: scanPattern p m.getLast? rest' f
        | none => scanPattern p (some c) rest f
      else scanPattern p (some c) rest f

/-- `re.findall(pattern, text)` for a product pattern (each pattern consists
of a single capture group spanning the whole body, so `findall` returns the
matched text itself). -/
def findAllPattern (p : ProductPattern) (cs : List Char) : List (List Char) :=
  scanPattern p none cs cs.length

/-- The ordered `product_patterns` list of `get_top_products`. -/
def productPatterns : List ProductPattern := [
  .alts ["paracetamol".toList, "panadol".toList],
  .alts ["amoxicillin".toList, "amox".toList],
  .alts ["cephalexin".toList, "keflex".toList],
  .alts ["metformin".toList, "glucophage".toList],
  .alts ["insulin".toList],
  .vitaminFamily,
  .alts ["cream".toList, "ointment".toList, "gel".toList],
  .alts ["syrup".toList, "suspension".toList],
  .alts ["tablet".toList, "pill".toList, "capsule".toList],
  .alts ["injection".toList, "injectable".toList]]

/-- `product_counts[match] = product_counts.get(match, 0) + 1` on an
insertion-ordered dict, modelled as an association list. -/
def bumpCount (m : List (String × Nat)) (k : String) : List (String × Nat) :=
  match m with
  | [] => [(k, 1)]
  | (k', v) :: rest =>
    if k' = k then (k', v + 1) :: rest else (k', v) :: bumpCount rest k

/-- The tallying loop of `get_top_products`: for each message text (falsy
texts are skipped), lower-case it and count the matches of every product
pattern.  The input list stands for the filtered query result
(`query.all()`); the time-frame and channel filters happen in the excluded
relational store. -/
def tallyProducts (texts : List String) : List (String × Nat) :=
  texts.foldl (fun m t =>
    if t = "" then m
    else
      let lower := t.toList.map Char.toLower
      productPatterns.foldl (fun m p =>
        (findAllPattern p lower).foldl (fun m w => bumpCount m w.asString) m) m) []

/-- `sorted(product_counts.items(), key=lambda x: x[1], reverse=True)`:
stable sort by count descending. -/
def sortByCountDesc (l : List (String × Nat)) : List (String × Nat) :=
  sortStableBy (fun a b => b.2 ≤ a.2) l

/-- Python `str.title()` for the ASCII product tokens: a letter is
upper-cased after a non-letter and lower-cased after a letter. -/
def pyTitleAux (prevAlpha : Bool) : List Char → List Char
  | [] => []
  | c :: rest =>
    (if c.isAlpha then (if prevAlpha then c.toLower else c.toUpper) else c)
      :: pyTitleAux c.isAlpha rest

/-- Python `str.title()`. -/
def pyTitle (s : String) : String := ⟨pyTitleAux false s.toList⟩

/-- One entry of the `get_top_products` result list.  The channel and
timestamp fields are the literal placeholders of the source. -/
structure ProductEntry where
  product_name : String
  mention_count : Nat
  unique_channels : Nat
  first_mentioned : Option Nat
  last_mentioned : Option Nat
deriving DecidableEq, Repr

/-- `QueryService.get_top_products` after the store query: tally, sort by
count descending, truncate to `limit`, then keep entries with at least
`min_mentions` mentions, formatting each with `str.title()`. -/
def getTopProducts (texts : List String) (limit min_mentions : Nat) :
    List ProductEntry :=
  let sorted_products := (sortByCountDesc (tallyProducts texts)).take limit
  (sorted_products.filter (fun pc => min_mentions ≤ pc.2)).map (fun pc =>
    { product_name := pyTitle pc.1
      mention_count := pc.2
      unique_channels := 1
      first_mentioned := none
      last_mentioned := none })

/-! ## Channel activity (`QueryService.get_channel_activity`) -/

/-- A `dim_channels` row, restricted to the referenced columns. -/
structure DimChannelRow where
  channel_key : Nat
  channel_name : String
deriving DecidableEq, Repr

/-- A `fct_messages` row joined with its `dim_dates` date, restricted to the
referenced columns; `date_key` doubles as the day number of `full_date`. -/
structure FactMessageRow where
  message_id : Nat
  channel_key : Nat
  date_key : Nat
  view_count : Nat
  forward_count : Nat
deriving DecidableEq, Repr

/-- The slice of the warehouse the activity query reads. -/
structure WarehouseDB where
  channels : List DimChannelRow
  messages : List FactMessageRow

/-- Failure modes of a query-service call: `channelNotFound` models the
`ValueError(f"Channel {channel_name} not found")` raised by the service
(translated to a 404-equivalent by callers), `serverError` the generic
translation of any other exception at the router boundary. -/
inductive QueryError where
  | channelNotFound (name : String)
  | serverError
deriving DecidableEq, Repr

/-- One bucket of the daily activity series. -/
structure DailyActivity where
  full_date : Nat
  post_count : Nat
  total_views : Nat
deriving DecidableEq, Repr

/-- The `get_channel_activity` response (daily granularity; the weekly and
monthly branches differ only in the grouping key). -/
structure ChannelActivity where
  channel : String
  period_start : Nat
  period_end : Nat
  total_posts : Nat
  total_views : Nat
  total_forwards : Nat
  activity_data : List DailyActivity
deriving DecidableEq, Repr

/-- `QueryService.get_channel_activity`: look the channel up by exact name
(`.first()` on the filtered channel table); raise the not-found signal when
it is missing, otherwise aggregate the channel's messages in the date
range. -/
def getChannelActivity (db : WarehouseDB) (channel_name : String)
    (start_date end_date : Nat) : Except QueryError ChannelActivity :=
  match db.channels.find? (fun c => c.channel_name == channel_name) with
  | none => .error (.channelNotFound channel_name)
  | some channel =>
    let msgs := db.messages.filter (fun m =>
      m.channel_key == channel.channel_key
        && start_date ≤ m.date_key && m.date_key ≤ end_date)
    let days := sortStableBy (fun a b => a ≤ b) ((msgs.map (·.date_key)).dedup)
    .ok {
      channel := channel_name
      period_start := start_date
      period_end := end_date
      total_posts := msgs.length
      total_views := (msgs.map (·.view_count)).sum
      total_forwards := (msgs.map (·.forward_count)).sum
      activity_data := days.map (fun d =>
        let dm := msgs.filter (fun m => m.date_key == d)
        { full_date := d
          post_count := dm.length
          total_views := (dm.map (·.view_count)).sum }) }

/-! ## Visual content statistics (`QueryService.get_visual_content_stats`) -/

/-- One aggregated row of the per-channel statistics query:
`(channel_name, count(message_id), sum(case has_image), avg(confidence))`.
The average is `none` when the channel has no analysed images
(SQL `NULL`). -/
structure VisualStatRow where
  channel_name : String
  total_posts : Nat
  posts_with_images : Nat
  avg_confidence : Option ℚ
deriving Repr

/-- One formatted entry of `channel_stats`. -/
structure VisualChannelStat where
  channel_name : String
  total_posts : Nat
  posts_with_images : Nat
  image_percentage : ℚ
  avg_confidence : ℚ
deriving Repr

/-- The per-row formatting inside the `get_visual_content_stats` loop:
`image_percentage` is `posts_with_images / total_posts * 100` guarded by
`if total_posts else 0`, and null aggregates are defaulted with `or 0`. -/
def mkChannelStat (r : VisualStatRow) : VisualChannelStat :=
  { channel_name := r.channel_name
    total_posts := r.total_posts
    posts_with_images := r.posts_with_images
    image_percentage :=
      if r.total_posts ≠ 0 then
        (r.posts_with_images : ℚ) / (r.total_posts : ℚ) * 100
      else 0
    avg_confidence := r.avg_confidence.getD 0 }

/-- The `channel_stats` list of `get_visual_content_stats` (the category
distribution and top-objects sub-queries live in the excluded store). -/
def getVisualChannelStats (rows : List VisualStatRow) : List VisualChannelStat :=
  rows.map mkChannelStat

/-! ## Analytics dashboard channel ranking (`QueryService.get_analytics_dashboard`) -/

/-- One aggregated row of the channel-performance query. -/
structure ChannelPerfRow where
  channel_name : String
  channel_type : String
  message_count : Nat
  total_views : Nat
  total_forwards : Nat
deriving DecidableEq, Repr

/-- The derived `engagement_rate` column:
`sum(view_count) / count(message_id)`, which PostgreSQL evaluates with
integer division on the integer `view_count` column. -/
def engagementRate (r : ChannelPerfRow) : Nat :=
  r.total_views / r.message_count

/-- The list is sorted by `engagement_rate` descending — the single
`ORDER BY` key of the channel-performance query. -/
def SortedByEngagementDesc (l : List ChannelPerfRow) : Prop :=
  l.Pairwise (fun a b => engagementRate b ≤ engagementRate a)

/-- The `channel_performance` result: `ORDER BY engagement_rate DESC LIMIT
10` admits any permutation of the input that is sorted on the single key,
truncated to ten rows; rows equal on the key may come back in any order. -/
def ChannelPerformanceResult (rows output : List ChannelPerfRow) : Prop :=
  ∃ sorted, rows.Perm sorted ∧ SortedByEngagementDesc sorted ∧
    output = sorted.take 10

/-- Ties on the engagement rate are broken by `total_views` descending —
the ordering the specification ascribes to the ranking. -/
def TiesBrokenByViews (l : List ChannelPerfRow) : Prop :=
  l.Pairwise (fun a b =>
    engagementRate a = engagementRate b → b.total_views ≤ a.total_views)

/-! ## Image classification rules (`src/image_classifier.py`) -/

/-- The `ImageCategory` enum. -/
inductive ImageCategory where
  | promotional
  | product_display
  | lifestyle
  | ingredient_showcase
  | medical_context
  | before_after
  | text_heavy
  | unknown
deriving DecidableEq, Repr

/-- The `.value` string of each `ImageCategory` member. -/
def ImageCategory.val : ImageCategory → String
  | .promotional => "promotional"
  | .product_display => "product_display"
  | .lifestyle => "lifestyle"
  | .ingredient_showcase => "ingredient_showcase"
  | .medical_context => "medical_context"
  | .before_after => "before_after"
  | .text_heavy => "text_heavy"
  | .unknown => "unknown"

/-- A raw YOLO detection dictionary, after `dict.get` defaulting:
`{'class': …, 'confidence': …}`. -/
structure RawDetection where
  cls : String
  confidence : ℚ
deriving DecidableEq, Repr

/-- `DetectionResult`: a single kept detection. -/
structure DetectionResult where
  class_name : String
  confidence : ℚ
deriving DecidableEq, Repr

/-- `MEDICAL_RELEVANT_CLASSES`: the allow-list of YOLO classes with their
business tags. -/
def medicalRelevantClasses : List (String × List String) := [
  ("person", ["person", "human"]),
  ("bottle", ["product", "container", "bottle"]),
  ("cup", ["product", "container", "cup"]),
  ("wine glass", ["product", "container", "glass"]),
  ("handbag", ["cosmetic", "accessory", "bag"]),
  ("suitcase", ["storage", "travel"]),
  ("book", ["documentation", "manual"]),
  ("cell phone", ["communication", "tech"]),
  ("remote", ["device", "electronic"]),
  ("chair", ["setting", "office"]),
  ("dining table", ["setting", "home"]),
  ("bed", ["setting", "medical"]),
  ("toilet", ["setting", "bathroom"]),
  ("tv", ["setting", "home"]),
  ("banana", ["ingredient", "food", "fruit"]),
  ("apple", ["ingredient", "food", "fruit"]),
  ("orange", ["ingredient", "food", "fruit"]),
  ("broccoli", ["ingredient", "food", "vegetable"]),
  ("carrot", ["ingredient", "food", "vegetable"]),
  ("dog", ["animal", "pet"]),
  ("cat", ["animal", "pet"]),
  ("bird", ["animal", "wildlife"])]

/-- The detection filter of `analyze_detections`: keep detections whose
confidence reaches the threshold and whose class is in the allow-list. -/
def filterDetections (threshold : ℚ) (data : List RawDetection) :
    List DetectionResult :=
  (data.filter (fun d =>
      decide (threshold ≤ d.confidence)
        && (medicalRelevantClasses.lookup d.cls).isSome)).map
    (fun d => { class_name := d.cls, confidence := d.confidence })

/-- `class_counts.get('person', 0)`: the number of kept person
detections. -/
def personCount (dets : List DetectionResult) : Nat :=
  (dets.filter (fun d => d.class_name == "person")).length

/-- `has_person = class_counts.get('person', 0) > 0`. -/
def has_person (dets : List DetectionResult) : Bool :=
  0 < personCount dets

/-- `has_product = any(c in ['bottle', 'cup', 'handbag', 'wine glass'] for c
in class_counts)`: a key is present in `class_counts` exactly when some
kept detection carries it. -/
def has_product (dets : List DetectionResult) : Bool :=
  dets.any (fun d =>
    d.class_name == "bottle" || d.class_name == "cup"
      || d.class_name == "handbag" || d.class_name == "wine glass")

/-- `has_food = any(c in ['banana', 'apple', 'orange', 'broccoli',
'carrot'] for c in class_counts)`. -/
def has_food (dets : List DetectionResult) : Bool :=
  dets.any (fun d =>
    d.class_name == "banana" || d.class_name == "apple"
      || d.class_name == "orange" || d.class_name == "broccoli"
      || d.class_name == "carrot")

/-- `has_medical_setting = any(c in ['bed', 'chair'] for c in class_counts)
and has_person`. -/
def has_medical_setting (dets : List DetectionResult) : Bool :=
  (dets.any (fun d => d.class_name == "bed" || d.class_name == "chair"))
    && has_person dets

/-- `_categorize_image`: the ordered decision table over the presence
flags, first match wins. -/
def categorizeImage (dets : List DetectionResult) : ImageCategory × ℚ :=
  if has_person dets && has_product dets then (.promotional, 8/10)
  else if has_product dets && !has_person dets then (.product_display, 7/10)
  else if has_person dets && !has_product dets && !has_medical_setting dets then
    (.lifestyle, 6/10)
  else if has_food dets then (.ingredient_showcase, 7/10)
  else if has_medical_setting dets then (.medical_context, 6/10)
  else if 2 ≤ personCount dets then (.before_after, 5/10)
  else (.unknown, 3/10)

/-- Python `round(x, 3)`.  Exact halves of a thousandth are rounded up here
where CPython rounds them to even; no value in this development sits on
such a tie. -/
def pyRound3 (q : ℚ) : ℚ := (⌊q * 1000 + 1/2⌋ : ℚ) / 1000

/-- `_calculate_overall_confidence`: mean detection confidence plus a bonus
of 0.05 per detection with confidence above 0.7, the bonus capped at 0.2,
the sum clamped to 1 and rounded to 3 decimals. -/
def calculateOverallConfidence (dets : List DetectionResult) : ℚ :=
  if dets.isEmpty then 0
  else
    let confidences := dets.map (·.confidence)
    let base_confidence := confidences.sum / (confidences.length : ℚ)
    let high_conf_count := (confidences.filter (fun c => decide ((7:ℚ)/10 < c))).length
    let bonus := min ((high_conf_count : ℚ) * (5/100)) (2/10)
    pyRound3 (min (base_confidence + bonus) 1)

/-- Insert a string into a set-as-list if absent; `_extract_business_tags`
builds a Python `set`, whose iteration order is unspecified — it is
modelled as first-insertion order. -/
def addTag (tags : List String) (t : String) : List String :=
  if t ∈ tags then tags else tags ++ [t]

/-- `_extract_business_tags`: the union of the allow-list tags of the kept
classes plus one average-confidence tier tag. -/
def extractBusinessTags (dets : List DetectionResult) : List String :=
  let tags := dets.foldl (fun acc d =>
    match medicalRelevantClasses.lookup d.class_name with
    | some classTags => classTags.foldl addTag acc
    | none => acc) []
  if dets.isEmpty then tags
  else
    let avg := (dets.map (·.confidence)).sum / (dets.length : ℚ)
    if (8:ℚ)/10 < avg then addTag tags "high_confidence"
    else if (5:ℚ)/10 < avg then addTag tags "medium_confidence"
    else addTag tags "low_confidence"

/-- The fixed `business_implications` strings of
`_generate_business_insights` (display only). -/
def businessImplications : ImageCategory → List String
  | .promotional => [
      "Good for brand storytelling and marketing",
      "Shows product in use context",
      "Effective for social media engagement"]
  | .product_display => [
      "Pure product showcase - good for catalogs",
      "Focus on product features and details",
      "Useful for technical documentation"]
  | .lifestyle => [
      "Builds emotional brand connection",
      "Focus on user experience and benefits",
      "Good for long-term brand building"]
  | .ingredient_showcase => [
      "Highlights natural/organic ingredients",
      "Supports health and wellness claims",
      "Appeals to health-conscious consumers"]
  | .medical_context => [
      "Establishes professional/medical authority",
      "Builds trust through clinical context",
      "Appeals to health professionals"]
  | _ => []

/-- `_generate_business_insights`, restricted to its stable content: the
category value, the object count, the top three detections by confidence
(stable sort, descending) and the per-category implication strings. -/
structure BusinessInsights where
  category : String
  total_objects : Nat
  top_objects : List DetectionResult
  implications : List String
deriving DecidableEq, Repr

/-- Build the insights record of `_generate_business_insights`. -/
def generateBusinessInsights (dets : List DetectionResult)
    (category : ImageCategory) : BusinessInsights :=
  { category := category.val
    total_objects := dets.length
    top_objects :=
      (sortStableBy (fun a b => decide (b.confidence ≤ a.confidence)) dets).take 3
    implications := businessImplications category }

/-- `ImageAnalysis`, restricted to the fields the claims inspect plus the
pass-through identifiers (the `metadata` dictionary is diagnostic
display-only content and is represented by its `detection_count` entry). -/
structure ImageAnalysis where
  image_path : String
  message_id : Nat
  detections : List DetectionResult
  category : String
  confidence_score : ℚ
  business_tags : List String
  business_insights : BusinessInsights
  detection_count : Nat
deriving DecidableEq, Repr

/-- `_create_unknown_analysis`: the canonical result for empty or fully
filtered detections. -/
def createUnknownAnalysis (dets : List DetectionResult) (image_path : String)
    (message_id : Nat) : ImageAnalysis :=
  { image_path := image_path
    message_id := message_id
    detections := dets
    category := ImageCategory.unknown.val
    confidence_score := 0
    business_tags := ["no_detections", "low_confidence"]
    business_insights := {
      category := "unknown"
      total_objects := 0
      top_objects := []
      implications := ["No relevant objects detected"] }
    detection_count := 0 }

/-- `MedicalImageClassifier.analyze_detections`: filter the raw detections,
fall back to the canonical unknown analysis when none survive, otherwise
categorize, tag and score. -/
def analyzeDetections (threshold : ℚ) (detections_data : List RawDetection)
    (image_path : String) (message_id : Nat) : ImageAnalysis :=
  let dets := filterDetections threshold detections_data
  if dets.isEmpty then createUnknownAnalysis dets image_path message_id
  else
    let cat := categorizeImage dets
    { image_path := image_path
      message_id := message_id
      detections := dets
      category := cat.1.val
      confidence_score := calculateOverallConfidence dets
      business_tags := extractBusinessTags dets
      business_insights := generateBusinessInsights dets cat.1
      detection_count := dets.length }

/-! ## Concrete instances used by witnesses -/

/-- A Redis client whose every operation raises. -/
def errClient : RedisClient :=
  { get := fun _ => .error .err
    setex := fun _ _ _ => .error .err
    del := fun _ => .error .err }

/-- A trivial pickle model for natural numbers. -/
def natPickle : Pickle Nat :=
  { dumps := fun _ => .ok []
    loads := fun _ => .ok 0 }

/-- Channel-performance row with 10 total views over 2 messages
(engagement rate 5). -/
def perfRowA : ChannelPerfRow :=
  { channel_name := "alpha", channel_type := "medical"
    message_count := 2, total_views := 10, total_forwards := 0 }

/-- Channel-performance row with 20 total views over 4 messages
(engagement rate 5, more views than `perfRowA`). -/
def perfRowB : ChannelPerfRow :=
  { channel_name := "beta", channel_type := "medical"
    message_count := 4, total_views := 20, total_forwards := 0 }

/-! # Theorems

General helper lemmas first, then one theorem per verified statement (with
its witness or counterexample where applicable). -/

/-! ## Helper lemmas: stable sorting -/

theorem mem_insertStableBy (le : α → α → Bool) (x : α) (l : List α) :
    ∀ y ∈ insertStableBy le x l, y = x ∨ y ∈ l := by
  induction l with
  | nil => intro y hy; simp [insertStableBy] at hy; exact Or.inl hy
  | cons z zs ih =>
    intro y hy
    simp only [insertStableBy] at hy
    by_cases hle : le x z
    · rw [if_pos hle] at hy
      rcases List.mem_cons.mp hy with h | h
      · exact Or.inl h
      · exact Or.inr h
    · rw [if_neg hle] at hy
      rcases List.mem_cons.mp hy with h | h
      · exact Or.inr (by simp [h])
      · rcases ih y h with h' | h'
        · exact Or.inl h'
        · exact Or.inr (by simp [h'])

theorem pairwise_insertStableBy (le : α → α → Bool) (R : α → α → Prop)
    (htrue : ∀ a b, le a b = true → R a b)
    (hfalse : ∀ a b, le a b = false → R b a)
    (htrans : ∀ a b c, R a b → R b c → R a c)
    (x : α) (l : List α) (h : l.Pairwise R) :
    (insertStableBy le x l).Pairwise R := by
  induction l with
  | nil => simp [insertStableBy]
  | cons z zs ih =>
    rcases List.pairwise_cons.mp h with ⟨hz, hzs⟩
    simp only [insertStableBy]
    by_cases hle : le x z
    · rw [if_pos hle]
      refine List.pairwise_cons.mpr ⟨?_, h⟩
      intro y hy
      rcases List.mem_cons.mp hy with rfl | hmem
      · exact htrue x y hle
      · exact htrans x z y (htrue x z hle) (hz y hmem)
    · rw [if_neg hle]
      refine List.pairwise_cons.mpr ⟨?_, ih hzs⟩
      intro y hy
      rcases mem_insertStableBy le x zs y hy with h | hmem
      · subst h; exact hfalse y z (by simpa using hle)
      · exact hz y hmem

theorem pairwise_sortStableBy (le : α → α → Bool) (R : α → α → Prop)
    (htrue : ∀ a b, le a b = true → R a b)
    (hfalse : ∀ a b, le a b = false → R b a)
    (htrans : ∀ a b c, R a b → R b c → R a c)
    (l : List α) : (sortStableBy le l).Pairwise R := by
  induction l with
  | nil => simp [sortStableBy]
  | cons x xs ih =>
    exact pairwise_insertStableBy le R htrue hfalse htrans x _ ih

/-! ## C6 — cache facade error containment -/

/-- C6: for every key and value, the cache facade's `get` and `set` never
propagate a backend exception to the caller: both always return `.ok`;
in particular with no backend `get` yields `None` and `set` yields `False`,
and the same holds when the backend raises. -/
theorem cache_get_set_never_raise (β : Type) (pk : Pickle β)
    (svc : CacheService) (key : String) (value : β) (ttl : Option Nat) :
    (∃ r, svc.get pk key = .ok r) ∧
    (∃ b, svc.set pk key value ttl = .ok b) ∧
    (svc.redis = none →
      svc.get pk key = .ok none ∧ svc.set pk key value ttl = .ok false) ∧
    (∀ rc, svc.redis = some rc → ∀ e, rc.get key = .error e →
      svc.get pk key = .ok none) ∧
    (∀ rc, svc.redis = some rc →
      (∀ k t bs, rc.setex k t bs = .error .err) →
      svc.set pk key value ttl = .ok false) := by
  obtain ⟨redis⟩ := svc
  cases redis with
  | none =>
    refine ⟨⟨none, rfl⟩, ⟨false, rfl⟩, fun _ => ⟨rfl, rfl⟩, ?_, ?_⟩
    · intro rc h; exact absurd h (by simp)
    · intro rc h; exact absurd h (by simp)
  | some rc =>
    refine ⟨?_, ?_, by simp, ?_, ?_⟩
    · unfold CacheService.get
      cases hb : CacheService.getBody pk rc key with
      | ok v => exact ⟨v, by simp [hb]⟩
      | error e => exact ⟨none, by simp [hb]⟩
    · unfold CacheService.set
      cases hb : CacheService.setBody pk rc key value ttl with
      | ok v => exact ⟨true, by simp [hb]⟩
      | error e => exact ⟨false, by simp [hb]⟩
    · intro rc' hrc e herr
      obtain rfl : rc = rc' := by simpa using hrc
      have hb : CacheService.getBody pk rc key = .error e := by
        unfold CacheService.getBody
        rw [herr]
        rfl
      unfold CacheService.get
      simp [hb]
    · intro rc' hrc herr
      obtain rfl : rc = rc' := by simpa using hrc
      have hb : ∃ e, CacheService.setBody pk rc key value ttl = .error e := by
        unfold CacheService.setBody
        cases hd : pk.dumps value with
        | ok bs => exact ⟨.err, herr _ _ _⟩
        | error e => exact ⟨e, rfl⟩
      obtain ⟨e, hb⟩ := hb
      unfold CacheService.set
      simp [hb]

/-- C6 witness: with a backend whose operations all raise, `get` returns
`None` and `set` returns `False` instead of propagating the error. -/
theorem cache_get_set_never_raise_witness :
    CacheService.get natPickle ⟨some errClient⟩ "top_products" = .ok none ∧
    CacheService.set natPickle ⟨some errClient⟩ "top_products" 5 none
      = .ok false := by
  have h := cache_get_set_never_raise Nat natPickle ⟨some errClient⟩
    "top_products" 5 none
  exact ⟨h.2.2.2.1 errClient rfl .err rfl,
    h.2.2.2.2 errClient rfl (fun _ _ _ => rfl)⟩

/-! ## C10 — the `cached` decorator caches nothing in the default wiring -/

/-- C10: the `cached` decorator constructs its `CacheService` with the
default `redis_client=None`, so inside the wrapper `get` always returns
`None` and `set` stores nothing; the wrapped function is extensionally
equal to the unwrapped one. -/
theorem cached_decorator_identity (β : Type) (pk : Pickle β)
    (md5hex : String → String) (pfx : String) (ttl : Option Nat)
    (f : List String → List (String × String) → β)
    (args : List String) (kwargs : List (String × String)) :
    cached pk md5hex pfx ttl f args kwargs = f args kwargs ∧
    (∀ key, CacheService.getOpt pk { redis := none } key = none) ∧
    (∀ key value,
      CacheService.set pk { redis := none } key value ttl = .ok false) :=
  ⟨rfl, fun _ => rfl, fun _ _ => rfl⟩

/-! ## C9 — visual content statistics: zero posts, zero percentage -/

/-- C9: every channel whose total post count in the queried range is zero
reports `image_percentage = 0`; computing the per-channel statistics is a
total function, so no division-by-zero error can be raised. -/
theorem visual_stats_zero_posts_zero_percentage (rows : List VisualStatRow) :
    ∀ s ∈ getVisualChannelStats rows,
      s.total_posts = 0 → s.image_percentage = 0 := by
  intro s hs h0
  simp only [getVisualChannelStats, List.mem_map] at hs
  obtain ⟨r, hr, rfl⟩ := hs
  have hr0 : r.total_posts = 0 := h0
  simp [mkChannelStat, hr0]

/-- C9 witness: a channel row with zero posts in range yields a zero image
percentage. -/
theorem visual_stats_zero_posts_witness :
    mkChannelStat ⟨"tikvahpharma", 0, 3, none⟩
        ∈ getVisualChannelStats [⟨"tikvahpharma", 0, 3, none⟩] ∧
      (mkChannelStat ⟨"tikvahpharma", 0, 3, none⟩).image_percentage = 0 :=
  ⟨by simp [getVisualChannelStats],
    visual_stats_zero_posts_zero_percentage [⟨"tikvahpharma", 0, 3, none⟩] _
      (by simp [getVisualChannelStats]) rfl⟩

/-! ## C8 — channel activity: unknown channel raises not-found -/

/-- C8: for every channel name with no matching channel record,
`get_channel_activity` fails with the distinct not-found signal — never an
empty success result and never the generic server error. -/
theorem channel_activity_not_found (db : WarehouseDB) (channel_name : String)
    (start_date end_date : Nat)
    (h : ∀ c ∈ db.channels, c.channel_name ≠ channel_name) :
    getChannelActivity db channel_name start_date end_date
      = .error (.channelNotFound channel_name) := by
  have hfind :
      db.channels.find? (fun c => c.channel_name == channel_name) = none := by
    rw [List.find?_eq_none]
    intro c hc
    simpa using h c hc
  simp [getChannelActivity, hfind]

/-- C8 witness: querying a name absent from the channel table returns the
not-found error. -/
theorem channel_activity_not_found_witness :
    getChannelActivity ⟨[⟨1, "lobelia4cosmetics"⟩], []⟩ "nosuchchannel" 0 30
      = .error (.channelNotFound "nosuchchannel") :=
  channel_activity_not_found ⟨[⟨1, "lobelia4cosmetics"⟩], []⟩ "nosuchchannel"
    0 30 (by decide)

/-! ## C7 — empty or fully filtered detections yield the canonical unknown -/

/-- C7: classifying an empty detection list — and any list whose detections
are all removed by the confidence threshold or the allow-list — returns a
result (never absent) with category `"unknown"`, confidence score exactly
`0`, and business tags `no_detections, low_confidence`. -/
theorem classify_empty_unknown :
    ((analyzeDetections (3/10) [] "" 0).category = "unknown" ∧
      (analyzeDetections (3/10) [] "" 0).confidence_score = 0 ∧
      (analyzeDetections (3/10) [] "" 0).business_tags
        = ["no_detections", "low_confidence"]) ∧
    ∀ (threshold : ℚ) (data : List RawDetection) (path : String) (mid : Nat),
      filterDetections threshold data = [] →
      analyzeDetections threshold data path mid
        = createUnknownAnalysis [] path mid := by
  refine ⟨⟨rfl, rfl, rfl⟩, ?_⟩
  intro threshold data path mid h
  simp [analyzeDetections, h]

/-- C7 witness: a list with one low-confidence detection and one
non-allow-listed detection filters down to nothing and yields the
canonical unknown analysis. -/
theorem classify_empty_unknown_witness :
    analyzeDetections (mkRat 3 10)
        [⟨"person", mkRat 1 10⟩, ⟨"truck", mkRat 9 10⟩] "photo_42.jpg" 42
      = createUnknownAnalysis [] "photo_42.jpg" 42 :=
  classify_empty_unknown.2 (mkRat 3 10)
    [⟨"person", mkRat 1 10⟩, ⟨"truck", mkRat 9 10⟩] "photo_42.jpg" 42
    (by decide)

/-! ## C4 — the `before_after` rule is unreachable -/

/-- Core argument shared by the C4 counterexample and its amended theorem:
reaching the sixth rule requires at least two `person` detections (so
`has_person`), no product (from the failed first rule) and no medical
setting (from the failed fifth rule) — but that combination already fires
the third (`lifestyle`) rule. -/
theorem categorizeImage_ne_before_after (dets : List DetectionResult) :
    (categorizeImage dets).1 ≠ ImageCategory.before_after := by
  intro h
  unfold categorizeImage at h
  split_ifs at h with h1 h2 h3 h4 h5 h6
  -- only the sixth branch survives, and its guards are mutually inconsistent
  have hp : has_person dets = true := by
    simp only [has_person, decide_eq_true_eq]
    omega
  have hprod : has_product dets = false := by
    cases hpr : has_product dets
    · rfl
    · exact absurd (by simp [hp, hpr]) h1
  exact h3 (by simp [hp, hprod, h5])

/-- C4 counterexample: no detection list makes `_categorize_image` return
`before_after` — the ordered decision table cannot produce it, because its
guard is shadowed by the earlier rules. -/
theorem before_after_unreachable :
    ¬ ∃ dets : List DetectionResult,
        (categorizeImage dets).1 = ImageCategory.before_after := by
  rintro ⟨dets, h⟩
  exact categorizeImage_ne_before_after dets h

/-- C4 amended: the `before_after` branch of the decision table is dead
code — `_categorize_image` never returns it; a detection list with two
person detections and none of the product/food/setting classes instead
returns `lifestyle` with weight 0.6. -/
theorem categorize_never_before_after :
    (∀ dets : List DetectionResult,
        (categorizeImage dets).1 ≠ ImageCategory.before_after) ∧
      categorizeImage [⟨"person", 1⟩, ⟨"person", 1⟩]
        = (ImageCategory.lifestyle, 6/10) :=
  ⟨categorizeImage_ne_before_after, rfl⟩

/-- C4 witness: the amended theorem applied to a concrete two-person
detection list. -/
theorem categorize_never_before_after_witness :
    (categorizeImage [⟨"person", 1⟩, ⟨"person", 1⟩]).1
      ≠ ImageCategory.before_after :=
  categorize_never_before_after.1 [⟨"person", 1⟩, ⟨"person", 1⟩]

/-! ## C5 — dashboard channel ranking: no tie-break on total views -/

/-- C5 counterexample: the channel-performance query orders by
`engagement_rate` alone, so two channels with equal rates may come back in
either order — in particular with the smaller `total_views` first.  The
rows `perfRowA` (rate 5, views 10) and `perfRowB` (rate 5, views 20) admit
the valid result `[perfRowA, perfRowB]`, which violates the claimed
views-descending tie-break. -/
theorem channel_ranking_tie_break_fails :
    ¬ ∀ rows output, ChannelPerformanceResult rows output →
        TiesBrokenByViews output := by
  intro hclaim
  have hvalid : ChannelPerformanceResult [perfRowA, perfRowB]
      [perfRowA, perfRowB] := by
    refine ⟨[perfRowA, perfRowB], List.Perm.refl _, ?_, rfl⟩
    simp only [SortedByEngagementDesc, List.pairwise_cons]
    refine ⟨?_, ?_, by simp⟩
    · intro b hb
      rcases List.mem_cons.mp hb with rfl | hb
      · decide
      · simp at hb
    · intro b hb
      simp at hb
  have hties := hclaim _ _ hvalid
  simp only [TiesBrokenByViews, List.pairwise_cons] at hties
  have := hties.1 perfRowB (by simp) (by decide)
  revert this
  decide

/-- C5 amended: the top-10 channel performance list is ordered by
engagement rate (integer `total_views / total_posts`) descending and has at
most ten entries; the relative order of channels with equal engagement
rates is not specified by the query. -/
theorem channel_ranking_sorted_by_engagement
    (rows output : List ChannelPerfRow)
    (h : ChannelPerformanceResult rows output) :
    SortedByEngagementDesc output ∧ output.length ≤ 10 := by
  obtain ⟨sorted, _, hsort, rfl⟩ := h
  constructor
  · exact List.Pairwise.sublist (List.take_sublist 10 sorted) hsort
  · rw [List.length_take]
    exact min_le_left _ _

/-- C5 witness: the amended theorem applied to a one-row result. -/
theorem channel_ranking_sorted_witness :
    SortedByEngagementDesc [perfRowA] ∧
      ([perfRowA] : List ChannelPerfRow).length ≤ 10 :=
  channel_ranking_sorted_by_engagement [perfRowA] [perfRowA]
    ⟨[perfRowA], List.Perm.refl _, by simp [SortedByEngagementDesc], rfl⟩

/-! ## C3 — overall confidence formula and bounds -/

/-- Rounding to three decimals keeps a value of `[0, 1]` inside `[0, 1]`. -/
theorem pyRound3_mem_unit (q : ℚ) (h0 : 0 ≤ q) (h1 : q ≤ 1) :
    0 ≤ pyRound3 q ∧ pyRound3 q ≤ 1 := by
  unfold pyRound3
  constructor
  · apply div_nonneg _ (by norm_num)
    have hfloor : (0 : ℤ) ≤ ⌊q * 1000 + 1/2⌋ := by
      apply Int.le_floor.mpr
      push_cast
      nlinarith
    exact_mod_cast hfloor
  · rw [div_le_one (by norm_num)]
    have hfloor : ⌊q * 1000 + 1/2⌋ ≤ 1000 := by
      have hlt : (q * 1000 + 1/2 : ℚ) < 1001 := by nlinarith
      have := Int.floor_lt.mpr (by exact_mod_cast hlt :
        (q * 1000 + 1/2 : ℚ) < ((1001 : ℤ) : ℚ))
      omega
    exact_mod_cast hfloor

/-- C3: for a non-empty detection list with all confidences in `[0, 1]`,
the overall confidence equals the mean confidence plus a bonus of `0.05`
per detection with confidence above `0.7`, the bonus capped at `0.2`, the
sum clamped to `1` and rounded to three decimals — and the result lies in
`[0, 1]`. -/
theorem overall_confidence_formula_and_bounds (dets : List DetectionResult)
    (hne : dets ≠ [])
    (hbounds : ∀ d ∈ dets, 0 ≤ d.confidence ∧ d.confidence ≤ 1) :
    calculateOverallConfidence dets
        = pyRound3 (min ((dets.map (·.confidence)).sum / ((dets.map (·.confidence)).length : ℚ)
            + min ((((dets.map (·.confidence)).filter
                (fun c => decide ((7:ℚ)/10 < c))).length : ℚ) * (5/100)) (2/10)) 1) ∧
      0 ≤ calculateOverallConfidence dets ∧
      calculateOverallConfidence dets ≤ 1 := by
  have hne' : dets.isEmpty = false := by
    simpa [List.isEmpty_iff] using hne
  have heq : calculateOverallConfidence dets
      = pyRound3 (min ((dets.map (·.confidence)).sum / ((dets.map (·.confidence)).length : ℚ)
          + min ((((dets.map (·.confidence)).filter
              (fun c => decide ((7:ℚ)/10 < c))).length : ℚ) * (5/100)) (2/10)) 1) := by
    simp only [calculateOverallConfidence, hne', Bool.false_eq_true, if_false]
  refine ⟨heq, ?_⟩
  rw [heq]
  have hlenpos : 0 < ((dets.map (·.confidence)).length : ℚ) := by
    have : 0 < dets.length := List.length_pos.mpr hne
    simp only [List.length_map]
    exact_mod_cast this
  have hmem : ∀ c ∈ dets.map (·.confidence), 0 ≤ c ∧ c ≤ 1 := by
    intro c hc
    obtain ⟨d, hd, rfl⟩ := List.mem_map.mp hc
    exact hbounds d hd
  have hsum0 : 0 ≤ (dets.map (·.confidence)).sum :=
    List.sum_nonneg (fun c hc => (hmem c hc).1)
  have hsum1 : (dets.map (·.confidence)).sum
      ≤ (dets.map (·.confidence)).length • (1 : ℚ) :=
    List.sum_le_card_nsmul _ _ (fun c hc => (hmem c hc).2)
  have hbase0 : 0 ≤ (dets.map (·.confidence)).sum
      / ((dets.map (·.confidence)).length : ℚ) :=
    div_nonneg hsum0 (le_of_lt hlenpos)
  have hbase1 : (dets.map (·.confidence)).sum
      / ((dets.map (·.confidence)).length : ℚ) ≤ 1 := by
    rw [div_le_one hlenpos]
    simpa [nsmul_eq_mul] using hsum1
  have hbonus0 : 0 ≤ min ((((dets.map (·.confidence)).filter
      (fun c => decide ((7:ℚ)/10 < c))).length : ℚ) * (5/100)) (2/10) :=
    le_min (by positivity) (by norm_num)
  have hr0 : 0 ≤ min ((dets.map (·.confidence)).sum
      / ((dets.map (·.confidence)).length : ℚ)
      + min ((((dets.map (·.confidence)).filter
          (fun c => decide ((7:ℚ)/10 < c))).length : ℚ) * (5/100)) (2/10)) 1 :=
    le_min (add_nonneg hbase0 hbonus0) zero_le_one
  exact pyRound3_mem_unit _ hr0 (min_le_right _ _)

/-- C3 witness: two detections with confidences 0.8 and 0.9 stay within
the unit interval. -/
theorem overall_confidence_bounds_witness :
    0 ≤ calculateOverallConfidence
        [⟨"bottle", mkRat 4 5⟩, ⟨"person", mkRat 9 10⟩] ∧
      calculateOverallConfidence
        [⟨"bottle", mkRat 4 5⟩, ⟨"person", mkRat 9 10⟩] ≤ 1 :=
  ⟨(overall_confidence_formula_and_bounds
      [⟨"bottle", mkRat 4 5⟩, ⟨"person", mkRat 9 10⟩]
      (by decide) (by decide)).2.1,
   (overall_confidence_formula_and_bounds
      [⟨"bottle", mkRat 4 5⟩, ⟨"person", mkRat 9 10⟩]
      (by decide) (by decide)).2.2⟩

/-! ## C2 — top products: worked example and result shape -/

/-- C2: on the three example messages, `get_top_products` with
`min_mentions = 2` returns exactly the `Paracetamol` entry with two
mentions (so `Amoxicillin`, with one mention, is excluded); and in general
the result — the per-token pattern tallies sorted by count descending,
truncated to `limit`, then filtered by the threshold — has at most `limit`
entries, only entries with at least `min_mentions` mentions, and is
ordered by mention count descending. -/
theorem top_products_example_and_shape :
    (getTopProducts
        ["Paracetamol 500mg available", "paracetamol in stock",
         "Amoxicillin 250mg"] 10 2
      = [{ product_name := "Paracetamol", mention_count := 2,
           unique_channels := 1, first_mentioned := none,
           last_mentioned := none }]) ∧
    (∀ e ∈ getTopProducts
        ["Paracetamol 500mg available", "paracetamol in stock",
         "Amoxicillin 250mg"] 10 2, e.product_name ≠ "Amoxicillin") ∧
    ∀ (texts : List String) (limit min_mentions : Nat),
      (getTopProducts texts limit min_mentions).length ≤ limit ∧
      (∀ e ∈ getTopProducts texts limit min_mentions,
        min_mentions ≤ e.mention_count) ∧
      (getTopProducts texts limit min_mentions).Pairwise
        (fun a b => b.mention_count ≤ a.mention_count) := by
  refine ⟨by decide, by decide, ?_⟩
  intro texts limit min_mentions
  refine ⟨?_, ?_, ?_⟩
  · simp only [getTopProducts, List.length_map]
    calc ((sortByCountDesc (tallyProducts texts)).take limit |>.filter
          (fun pc => decide (min_mentions ≤ pc.2))).length
        ≤ ((sortByCountDesc (tallyProducts texts)).take limit).length :=
          List.length_filter_le _ _
      _ ≤ limit := by rw [List.length_take]; exact min_le_left _ _
  · intro e he
    simp only [getTopProducts, List.mem_map, List.mem_filter] at he
    obtain ⟨pc, ⟨_, hpc⟩, rfl⟩ := he
    simpa using hpc
  · have hsorted : (sortByCountDesc (tallyProducts texts)).Pairwise
        (fun (a b : String × Nat) => b.2 ≤ a.2) := by
      apply pairwise_sortStableBy
      · intro a b hab
        simpa using hab
      · intro a b hab
        have : ¬ (b.2 ≤ a.2) := by simpa using hab
        exact le_of_not_le this
      · intro a b c hab hbc
        exact le_trans hbc hab
    have htake := List.Pairwise.sublist
      (List.take_sublist limit (sortByCountDesc (tallyProducts texts))) hsorted
    have hfilter := List.Pairwise.filter
      (fun pc => decide (min_mentions ≤ pc.2)) htake
    simp only [getTopProducts]
    rw [List.pairwise_map]
    exact hfilter

/-- C2 witness: the Paracetamol entry is in the example result and meets
the two-mention threshold. -/
theorem top_products_example_witness :
    2 ≤ (ProductEntry.mk "Paracetamol" 2 1 none none).mention_count :=
  (top_products_example_and_shape.2.2
      ["Paracetamol 500mg available", "paracetamol in stock",
       "Amoxicillin 250mg"] 10 2).2.1
    (ProductEntry.mk "Paracetamol" 2 1 none none) (by decide)

/-! ## Helper lemmas: decimal keys of the rate limiter -/

theorem natDecimalAux_ne_nil (f n : Nat) (hf : 0 < f) :
    natDecimalAux f n ≠ [] := by
  cases f with
  | zero => omega
  | succ f =>
    simp only [natDecimalAux]
    split
    · simp
    · simp

theorem digitChar_inj_lt :
    ∀ a < 10, ∀ b < 10, Nat.digitChar a = Nat.digitChar b → a = b := by
  decide

theorem natDecimalAux_inj :
    ∀ (f₁ : Nat), ∀ n₁ < f₁, ∀ (f₂ : Nat), ∀ n₂ < f₂,
      natDecimalAux f₁ n₁ = natDecimalAux f₂ n₂ → n₁ = n₂ := by
  intro f₁
  induction f₁ with
  | zero => intro n₁ h; omega
  | succ f ih =>
    intro n₁ h₁ f₂ n₂ h₂ heq
    cases f₂ with
    | zero => omega
    | succ g =>
      by_cases hn₁ : n₁ < 10 <;> by_cases hn₂ : n₂ < 10
      · simp only [natDecimalAux, if_pos hn₁, if_pos hn₂,
          List.cons.injEq, and_true] at heq
        exact digitChar_inj_lt n₁ hn₁ n₂ hn₂ heq
      · exfalso
        simp only [natDecimalAux, if_pos hn₁, if_neg hn₂] at heq
        have hlen := congrArg List.length heq
        simp only [List.length_cons, List.length_nil, List.length_append] at hlen
        have hnil : natDecimalAux g (n₂ / 10) = [] :=
          List.eq_nil_of_length_eq_zero (by omega)
        exact natDecimalAux_ne_nil g (n₂ / 10) (by omega) hnil
      · exfalso
        simp only [natDecimalAux, if_neg hn₁, if_pos hn₂] at heq
        have hlen := congrArg List.length heq
        simp only [List.length_cons, List.length_nil, List.length_append] at hlen
        have hnil : natDecimalAux f (n₁ / 10) = [] :=
          List.eq_nil_of_length_eq_zero (by omega)
        exact natDecimalAux_ne_nil f (n₁ / 10) (by omega) hnil
      · simp only [natDecimalAux, if_neg hn₁, if_neg hn₂] at heq
        have hrev := congrArg List.reverse heq
        simp only [List.reverse_append, List.reverse_cons, List.reverse_nil,
          List.nil_append, List.singleton_append, List.cons.injEq] at hrev
        have hmod : n₁ % 10 = n₂ % 10 :=
          digitChar_inj_lt _ (Nat.mod_lt _ (by norm_num)) _
            (Nat.mod_lt _ (by norm_num)) hrev.1
        have htl : natDecimalAux f (n₁ / 10) = natDecimalAux g (n₂ / 10) :=
          List.reverse_injective hrev.2
        have hdiv : n₁ / 10 = n₂ / 10 :=
          ih (n₁ / 10) (by omega) g (n₂ / 10) (by omega) htl
        omega

theorem string_append_mk_inj (s : String) (a b : List Char)
    (h : s ++ (⟨a⟩ : String) = s ++ ⟨b⟩) : a = b := by
  cases s with
  | mk d => exact List.append_cancel_left (congrArg String.data h)

theorem rateKey_window_inj (ip path : String) (w w' : Nat)
    (h : rateKey ip path w = rateKey ip path w') : w = w' := by
  have h' : (rateLimitKeyBase ip path ++ ":")
        ++ (⟨natDecimalAux (w + 1) w⟩ : String)
      = (rateLimitKeyBase ip path ++ ":") ++ ⟨natDecimalAux (w' + 1) w'⟩ := h
  have hdig := string_append_mk_inj _ _ _ h'
  exact natDecimalAux_inj (w + 1) w (by omega) (w' + 1) w' (by omega) hdig

/-! ## C1 — rate limiter window exhaustion -/

theorem dispatch_step_allowed (limit window : Nat) (ip path : String)
    (w k t : Nat) (σ : RLStore) (hpath : path ∉ exemptPaths)
    (hw : t / window = w) (hinv : onlyWindowCount ip path w k σ)
    (hk : k < limit) :
    dispatch limit window true ip path t σ
        = (.allowed limit (limit - k - 1) ((w + 1) * window),
           σ.setCount (rateKey ip path w) (k + 1)) ∧
      onlyWindowCount ip path w (k + 1)
        (σ.setCount (rateKey ip path w) (k + 1)) := by
  constructor
  · simp only [dispatch, if_neg hpath, hw, if_true, hinv.2]
    rw [if_neg (by omega : ¬ limit ≤ k)]
  · constructor
    · intro s hs
      simp only [RLStore.setCount, if_neg hs]
      exact hinv.1 s hs
    · simp [RLStore.setCount]

theorem runRequests_all_allowed (limit window : Nat) (ip path : String)
    (w : Nat) (hpath : path ∉ exemptPaths) :
    ∀ (ts : List Nat) (k : Nat) (σ : RLStore),
      (∀ t ∈ ts, t / window = w) → onlyWindowCount ip path w k σ →
      k + ts.length ≤ limit →
      (∀ o ∈ (runRequests limit window ip path ts σ).1,
        o.isAllowed = true) ∧
      onlyWindowCount ip path w (k + ts.length)
        (runRequests limit window ip path ts σ).2 := by
  intro ts
  induction ts with
  | nil =>
    intro k σ _ hinv _
    exact ⟨by simp [runRequests], by simpa [runRequests] using hinv⟩
  | cons t rest ih =>
    intro k σ hts hinv hle
    have hw : t / window = w := hts t (by simp)
    have hstep := dispatch_step_allowed limit window ip path w k t σ hpath hw
      hinv (by simp at hle; omega)
    have hrest := ih (k + 1) (σ.setCount (rateKey ip path w) (k + 1))
      (fun t' ht' => hts t' (by simp [ht'])) hstep.2 (by simp at hle ⊢; omega)
    constructor
    · intro o ho
      simp only [runRequests, hstep.1] at ho
      rcases List.mem_cons.mp ho with rfl | hmem
      · rfl
      · exact hrest.1 o hmem
    · have hgoal := hrest.2
      have harith : k + 1 + rest.length = k + (rest.length + 1) := by omega
      rw [harith] at hgoal
      simpa only [runRequests, hstep.1, List.length_cons] using hgoal

/-- C1 amended: for every positive limit, non-exempt endpoint and fixed
client, with the cache backend available and starting from the empty
counter store: a full window's worth of requests (one per `limit`) inside
one fixed window are all allowed; any further request in that window is
rejected with metadata (limit, remaining 0, reset at the start of the next
window); and a first request in any later window is allowed again. -/
theorem rate_limit_window_exhaustion (limit window : Nat) (ip path : String)
    (w : Nat) (ts : List Nat) (hpath : path ∉ exemptPaths)
    (hlim : 0 < limit) (hlen : ts.length = limit)
    (hts : ∀ t ∈ ts, t / window = w) :
    (∀ o ∈ (runRequests limit window ip path ts emptyRLStore).1,
      o.isAllowed = true) ∧
    (∀ t, t / window = w →
      (dispatch limit window true ip path t
          (runRequests limit window ip path ts emptyRLStore).2).1
        = .rejected limit 0 ((w + 1) * window)) ∧
    (∀ t', w < t' / window →
      ((dispatch limit window true ip path t'
          (runRequests limit window ip path ts emptyRLStore).2).1).isAllowed
        = true) := by
  have hinv0 : onlyWindowCount ip path w 0 emptyRLStore :=
    ⟨fun _ _ => rfl, rfl⟩
  have hrun := runRequests_all_allowed limit window ip path w hpath ts 0
    emptyRLStore hts hinv0 (by omega)
  have hinv : onlyWindowCount ip path w limit
      (runRequests limit window ip path ts emptyRLStore).2 := by
    have := hrun.2
    rwa [Nat.zero_add, hlen] at this
  refine ⟨hrun.1, ?_, ?_⟩
  · intro t ht
    simp only [dispatch, if_neg hpath, ht, if_true, hinv.2]
    rw [if_pos (le_refl limit)]
  · intro t' ht'
    have hne : rateKey ip path (t' / window) ≠ rateKey ip path w := by
      intro hcontra
      have := rateKey_window_inj ip path (t' / window) w hcontra
      omega
    have hcount : ((runRequests limit window ip path ts emptyRLStore).2
        (rateKey ip path (t' / window))).getD 0 = 0 := by
      rw [hinv.1 _ hne]
      rfl
    simp only [dispatch, if_neg hpath, if_true, hcount]
    rw [if_neg (by omega : ¬ limit ≤ 0)]
    rfl

/-- C1 counterexample: the claim fails as stated for two of its quantified
corners.  With `limit = 0` the `(N+1)`-th request (the first) is rejected
as claimed, but the first request of the following window (time 60,
window index 1) is rejected too, not accepted.  And for the exempt
endpoint `/health` with `limit = 1`, the second request in the same window
passes through instead of being rejected. -/
theorem rate_limit_claim_fails_at_edges :
    ((dispatch 0 60 true "1.2.3.4" "/reports" 60
        (dispatch 0 60 true "1.2.3.4" "/reports" 0 emptyRLStore).2).1
      = .rejected 0 0 120) ∧
    (runRequests 1 60 "1.2.3.4" "/health" [0, 1] emptyRLStore).1
      = [.passthrough, .passthrough] := by
  exact ⟨by decide, by decide⟩

/-- C1 witness: limit 2, window 60, two requests at times 0 and 10 are
allowed, a third request at time 30 in the same window is rejected with
metadata (2, 0, 60), and a request at time 70 (the next window) is allowed
again. -/
theorem rate_limit_window_exhaustion_witness :
    (RLOutcome.allowed 2 1 60).isAllowed = true ∧
    (dispatch 2 60 true "1.2.3.4" "/reports" 30
        (runRequests 2 60 "1.2.3.4" "/reports" [0, 10] emptyRLStore).2).1
      = .rejected 2 0 60 ∧
    ((dispatch 2 60 true "1.2.3.4" "/reports" 70
        (runRequests 2 60 "1.2.3.4" "/reports" [0, 10] emptyRLStore).2).1).isAllowed
      = true := by
  have h := rate_limit_window_exhaustion 2 60 "1.2.3.4" "/reports" 0 [0, 10]
    (by decide) (by decide) (by decide) (by decide)
  exact ⟨h.1 (RLOutcome.allowed 2 1 60) (by decide), h.2.1 30 (by decide),
    h.2.2 70 (by decide)⟩
